import Mathlib

/-!
Shallow embedding of `src/hippopopulation.py` (stochastic hippo population
simulator) and proofs about it.

Modelling conventions:
* Python `int` populations and counts become `ℤ`; sampled real-valued rates
  and numpy means become `ℚ` (exact arithmetic standing for the reals).
* `random.normalvariate(mean, dev)` can return any real number, so each call
  site receives its sampled value from an oracle (`Draws` record per year /
  per simulation); quantifying over all oracles quantifies over all possible
  sequences of random draws.
* `random.randint(1, 300)` becomes a `ℕ` draw, constrained to `[1, 300]` in
  the theorems that need the range.
* Python `int(x)` truncation toward zero becomes `int_trunc : ℚ → ℤ`.
* Python exceptions (`ZeroDivisionError` from a pure-Python division, `max`
  of an empty list) become `Except Unit`.  Numpy scalar division — the outer
  division of `logistic_growth`, whose denominator is `np.float64` because
  `np.exp` returns `np.float64` — never raises: on a zero denominator it
  warns and yields `nan`/`±inf`, modelled by `NpFloat.nonfinite`.
* `np.exp` is kept abstract as a function argument `expf : ℚ → ℚ`; the only
  fact about it that the claims use is `expf 0 = 1` (exact in IEEE as well).
-/

namespace HippoPopulation

/-- Python `int()` applied to a real value: truncation toward zero.
Both branches use nonnegative numerators, where integer division is plain
floor division, so the definition does not depend on a division convention. -/
def int_trunc (q : ℚ) : ℤ :=
  if 0 ≤ q.num then q.num / (q.den : ℤ) else -((-q.num) / (q.den : ℤ))

/-- `class KSP`: `initialPopulation = 100`.  The rate means and deviations of
`KSP` only parameterize the normal draws, which the oracle replaces, so the
initial population is the only `KSP` field the embedding needs. -/
def initialPopulation : ℤ := 100

/-- One year's worth of sampled randomness: the values returned by the five
`random.normalvariate` calls and the one `random.randint(1, 300)` call that
the loop body of `simulate` can make in a single year. -/
structure Draws where
  birthRate : ℚ
  deathRate : ℚ
  humanRate : ℚ
  resourceRate : ℚ
  phenomenonNat : ℕ
  phenomenonRate : ℚ

/-- `get_num_births`: `int(num_hippos * births)` where `births` is the
sampled rate (the oracle's value for `random.normalvariate`). -/
def get_num_births (num_hippos : ℤ) (births : ℚ) : ℤ :=
  int_trunc ((num_hippos : ℚ) * births)

/-- `get_num_deaths`: `int(num_hippos * deaths)` for the sampled rate. -/
def get_num_deaths (num_hippos : ℤ) (deaths : ℚ) : ℤ :=
  int_trunc ((num_hippos : ℚ) * deaths)

/-- `get_num_human_deaths`: `int(num_hippos * death_rate)` for the sampled rate. -/
def get_num_human_deaths (num_hippos : ℤ) (death_rate : ℚ) : ℤ :=
  int_trunc ((num_hippos : ℚ) * death_rate)

/-- `get_num_resource_deaths`: `int(num_hippos * death_rate)` for the sampled rate. -/
def get_num_resource_deaths (num_hippos : ℤ) (death_rate : ℚ) : ℤ :=
  int_trunc ((num_hippos : ℚ) * death_rate)

/-- `get_num_phenomenon_deaths`: `int(num_hippos * death_rate)` for the sampled rate. -/
def get_num_phenomenon_deaths (num_hippos : ℤ) (death_rate : ℚ) : ℤ :=
  int_trunc ((num_hippos : ℚ) * death_rate)

/-- `is_there_human_influence(num_hippos, current_year)`. -/
def is_there_human_influence (num_hippos : ℤ) (current_year : ℕ) : Bool :=
  if current_year < 3 then false
  else
    if num_hippos < 400 then false
    else true

/-- `enough_resources(num_hippos, current_year)`. -/
def enough_resources (num_hippos : ℤ) (current_year : ℕ) : Bool :=
  if current_year < 20 ∧ num_hippos < 1000 then true
  else if 20 < current_year ∧ current_year < 50 ∧ num_hippos < 500 then true
  else false

/-- `is_there_phenomenon(current_year)`: `random_number` is the value of
`random.randint(1, 300)`. -/
def is_there_phenomenon (current_year : ℕ) (random_number : ℕ) : Bool :=
  if random_number < current_year then true else false

/-- `class KPI`: the mutable per-year record of `simulate`. -/
structure KPI where
  populationSize : ℤ
  newBirths : ℤ
  newDeaths : ℤ
  humanInfluence : Bool
  humanDeaths : ℤ
  resources : Bool
  resourceDeaths : ℤ
  phenomenon : Bool
  phenomenonDeaths : ℤ

/-- `KPI()` with the class-level defaults. -/
def KPI.init : KPI :=
  { populationSize := 0, newBirths := 0, newDeaths := 0,
    humanInfluence := false, humanDeaths := 0,
    resources := true, resourceDeaths := 0,
    phenomenon := false, phenomenonDeaths := 0 }

/-- The body of the `for current_year in range(num_years)` loop of `simulate`
(everything after the `break` check), mutating the `KPI` record field by
field in source order.  `d` holds this year's random draws. -/
def loop_body (kpi : KPI) (current_year : ℕ) (d : Draws) : KPI :=
  let kpi := { kpi with newBirths := get_num_births kpi.populationSize d.birthRate }
  let kpi := { kpi with newDeaths := get_num_deaths kpi.populationSize d.deathRate }
  let kpi := { kpi with humanInfluence := is_there_human_influence kpi.populationSize current_year }
  let kpi := { kpi with humanDeaths :=
    if kpi.humanInfluence then get_num_human_deaths kpi.populationSize d.humanRate else 0 }
  let kpi := { kpi with resources := enough_resources kpi.populationSize current_year }
  let kpi := { kpi with resourceDeaths :=
    if kpi.resources then 0 else get_num_resource_deaths kpi.populationSize d.resourceRate }
  let kpi := { kpi with phenomenon := is_there_phenomenon current_year d.phenomenonNat }
  let kpi := { kpi with phenomenonDeaths :=
    if kpi.phenomenon then get_num_phenomenon_deaths kpi.populationSize d.phenomenonRate else 0 }
  { kpi with populationSize :=
      kpi.populationSize + kpi.newBirths - kpi.newDeaths - kpi.humanDeaths
        - kpi.resourceDeaths - kpi.phenomenonDeaths }

/-- The loop of `simulate`: `fuel` iterations remain, `year` is the current
value of `current_year`, `kpi` the mutable record.  Each iteration first
checks `populationSize <= 0` (the `break`), then runs the loop body and
appends the new `populationSize` to the trajectory. -/
def simulateAux (oracle : ℕ → Draws) : ℕ → ℕ → KPI → List ℤ
  | 0, _, _ => []
  | fuel + 1, year, kpi =>
    if kpi.populationSize ≤ 0 then []
    else
      let kpi' := loop_body kpi year (oracle year)
      kpi'.populationSize :: simulateAux oracle fuel (year + 1) kpi'

/-- `simulate(num_years)`: the trajectory of population sizes, with the
per-year random draws supplied by `oracle`. -/
def simulate (num_years : ℕ) (oracle : ℕ → Draws) : List ℤ :=
  simulateAux oracle num_years 0 { KPI.init with populationSize := initialPopulation }

end HippoPopulation

namespace HippoPopulation

/-! ### Helper oracles used by concrete witnesses and counterexamples -/

/-- Draws where every sampled rate is `0` and the `randint(1,300)` draw is
`300`, so no births, no deaths and no phenomenon occur. -/
def zeroDraws : Draws := ⟨0, 0, 0, 0, 300, 0⟩

/-- The oracle that answers `zeroDraws` every year: the population stays at
`100` forever. -/
def zOracle : ℕ → Draws := fun _ => zeroDraws

/-- An oracle whose year-0 natural-death rate draw is `2` (normal draws are
unbounded), killing `int(100 * 2) = 200` hippos in the first year. -/
def cexOracle : ℕ → Draws := fun _ => ⟨0, 2, 0, 0, 300, 0⟩

/-! ### Basic facts about the simulation loop -/

lemma simulateAux_length_le (oracle : ℕ → Draws) :
    ∀ (fuel year : ℕ) (kpi : KPI), (simulateAux oracle fuel year kpi).length ≤ fuel := by
  intro fuel
  induction fuel with
  | zero => intro year kpi; simp [simulateAux]
  | succ n ih =>
    intro year kpi
    by_cases hp : kpi.populationSize ≤ 0
    · simp [simulateAux, hp]
    · simp only [simulateAux, if_neg hp, List.length_cons]
      exact Nat.succ_le_succ (ih _ _)

lemma simulateAux_ne_nil_pos (oracle : ℕ → Draws) (fuel year : ℕ) (kpi : KPI)
    (h : simulateAux oracle fuel year kpi ≠ []) : 0 < kpi.populationSize := by
  cases fuel with
  | zero => simp [simulateAux] at h
  | succ n =>
    by_cases hp : kpi.populationSize ≤ 0
    · simp [simulateAux, hp] at h
    · omega

lemma simulateAux_dropLast_pos (oracle : ℕ → Draws) :
    ∀ (fuel year : ℕ) (kpi : KPI),
      ∀ x ∈ (simulateAux oracle fuel year kpi).dropLast, 0 < x := by
  intro fuel
  induction fuel with
  | zero => intro year kpi x hx; simp [simulateAux] at hx
  | succ n ih =>
    intro year kpi x hx
    by_cases hp : kpi.populationSize ≤ 0
    · simp [simulateAux, hp] at hx
    · simp only [simulateAux, if_neg hp] at hx
      rcases hr : simulateAux oracle n (year + 1) (loop_body kpi year (oracle year))
        with _ | ⟨r, rs⟩
      · rw [hr] at hx
        simp at hx
      · rw [hr] at hx
        rw [List.dropLast_cons₂] at hx
        rcases List.mem_cons.mp hx with hx | hx
        · subst hx
          exact simulateAux_ne_nil_pos oracle n (year + 1) _ (by rw [hr]; simp)
        · exact ih (year + 1) (loop_body kpi year (oracle year)) x (by rw [hr]; exact hx)

/-- All trajectory entries except possibly the last one are strictly positive. -/
lemma simulate_dropLast_pos (num_years : ℕ) (oracle : ℕ → Draws) :
    ∀ x ∈ (simulate num_years oracle).dropLast, 0 < x :=
  simulateAux_dropLast_pos oracle num_years 0 _

/-! ### Claim theorems about the policy predicates -/

/-- C4: `enough_resources` is true iff `(year < 20 ∧ population < 1000)` or
`(20 < year < 50 ∧ population < 500)`; in particular it is false at year 20
for every population, true at `(0, 999)`, false at `(0, 1000)`, true at
`(21, 499)` and false at `(50, 1)`. -/
theorem enough_resources_spec :
    (∀ (p : ℤ) (y : ℕ), enough_resources p y = true ↔
        ((y < 20 ∧ p < 1000) ∨ (20 < y ∧ y < 50 ∧ p < 500)))
    ∧ (∀ p : ℤ, enough_resources p 20 = false)
    ∧ enough_resources 999 0 = true
    ∧ enough_resources 1000 0 = false
    ∧ enough_resources 499 21 = true
    ∧ enough_resources 1 50 = false := by
  refine ⟨?_, ?_, by decide, by decide, by decide, by decide⟩
  · intro p y
    simp only [enough_resources]
    split_ifs with h1 h2 <;> simp <;> omega
  · intro p
    simp [enough_resources]

/-- C5: human influence holds iff `year ≥ 3` and `population ≥ 400`; for
`year < 3` it is false regardless of population. -/
theorem is_there_human_influence_spec :
    (∀ (p : ℤ) (y : ℕ), is_there_human_influence p y = true ↔ (3 ≤ y ∧ 400 ≤ p))
    ∧ (∀ (p : ℤ) (y : ℕ), y < 3 → is_there_human_influence p y = false) := by
  constructor
  · intro p y
    simp only [is_there_human_influence]
    split_ifs with h1 h2 <;> simp <;> omega
  · intro p y hy
    simp [is_there_human_influence, hy]

/-- Witness for C5: at year 2 and population 500 the predicate is false. -/
theorem is_there_human_influence_spec_witness :
    is_there_human_influence 500 2 = false :=
  is_there_human_influence_spec.2 500 2 (by norm_num)

/-- C6: the phenomenon predicate is true iff the drawn integer is strictly
below the current year; hence for every draw in `[1, 300]` it is false
whenever `year ≤ 1`.  It takes no population argument at all. -/
theorem is_there_phenomenon_spec :
    (∀ (y r : ℕ), is_there_phenomenon y r = true ↔ r < y)
    ∧ (∀ (y r : ℕ), y ≤ 1 → 1 ≤ r → r ≤ 300 → is_there_phenomenon y r = false) := by
  constructor
  · intro y r
    simp [is_there_phenomenon]
  · intro y r hy hr _
    simp only [is_there_phenomenon, ite_eq_right_iff]
    intro hlt
    omega

/-- Witness for C6: the draw 100 fires at year 150, and the draw 1 does not
fire at year 1. -/
theorem is_there_phenomenon_spec_witness :
    is_there_phenomenon 150 100 = true ∧ is_there_phenomenon 1 1 = false :=
  ⟨(is_there_phenomenon_spec.1 150 100).mpr (by norm_num),
    is_there_phenomenon_spec.2 1 1 (by norm_num) (by norm_num) (by norm_num)⟩

/-! ### Claim theorems about the year step and the trajectory -/

/-- C3: one pass of the loop body sets the new population to
`population + births − naturalDeaths − humanDeaths − resourceDeaths −
phenomenonDeaths`, each count independently truncated toward zero from
`population * sampled rate`, with the three conditional death counts zero
when their predicate points the other way. -/
theorem loop_body_population_spec :
    ∀ (kpi : KPI) (y : ℕ) (d : Draws),
      (loop_body kpi y d).populationSize =
        kpi.populationSize
          + int_trunc ((kpi.populationSize : ℚ) * d.birthRate)
          - int_trunc ((kpi.populationSize : ℚ) * d.deathRate)
          - (if is_there_human_influence kpi.populationSize y
               then int_trunc ((kpi.populationSize : ℚ) * d.humanRate) else 0)
          - (if enough_resources kpi.populationSize y then 0
               else int_trunc ((kpi.populationSize : ℚ) * d.resourceRate))
          - (if is_there_phenomenon y d.phenomenonNat
               then int_trunc ((kpi.populationSize : ℚ) * d.phenomenonRate) else 0) := by
  intro kpi y d
  rfl

/-- C7: a trajectory has at most `num_years` entries, and `simulate 0`
returns the empty sequence, for every sequence of random draws. -/
theorem simulate_length_spec :
    (∀ (num_years : ℕ) (oracle : ℕ → Draws),
        (simulate num_years oracle).length ≤ num_years)
    ∧ (∀ oracle : ℕ → Draws, simulate 0 oracle = []) := by
  constructor
  · intro num_years oracle
    exact simulateAux_length_le oracle num_years 0 _
  · intro oracle
    rfl

end HippoPopulation

namespace HippoPopulation

/-- Concrete evaluation: with all-zero rate draws the population stays at 100. -/
lemma simulate_two_zOracle : simulate 2 zOracle = [100, 100] := by
  norm_num [simulate, simulateAux, loop_body, KPI.init, initialPopulation, zOracle, zeroDraws,
    get_num_births, get_num_deaths, get_num_human_deaths, get_num_resource_deaths,
    get_num_phenomenon_deaths, is_there_human_influence, enough_resources,
    is_there_phenomenon, int_trunc]

/-- Concrete evaluation: a year-0 death-rate draw of 2 drives the population
to −100, which is appended to the trajectory before the next check. -/
lemma simulate_one_cexOracle : simulate 1 cexOracle = [-100] := by
  norm_num [simulate, simulateAux, loop_body, KPI.init, initialPopulation, cexOracle,
    get_num_births, get_num_deaths, get_num_human_deaths, get_num_resource_deaths,
    get_num_phenomenon_deaths, is_there_human_influence, enough_resources,
    is_there_phenomenon, int_trunc]

/-- Concrete evaluation: with two years requested, the −100 recorded in year 0
triggers the break in year 1, so the trajectory is the one-element `[-100]`. -/
lemma simulate_two_cexOracle : simulate 2 cexOracle = [-100] := by
  norm_num [simulate, simulateAux, loop_body, KPI.init, initialPopulation, cexOracle,
    get_num_births, get_num_deaths, get_num_human_deaths, get_num_resource_deaths,
    get_num_phenomenon_deaths, is_there_human_influence, enough_resources,
    is_there_phenomenon, int_trunc]

/-- A trajectory that is cut short before the horizon ends with the
non-positive population value that caused the cut. -/
lemma simulateAux_short_last_nonpos (oracle : ℕ → Draws) :
    ∀ (fuel year : ℕ) (kpi : KPI),
      0 < kpi.populationSize →
      (simulateAux oracle fuel year kpi).length < fuel →
      ∃ z, (simulateAux oracle fuel year kpi).getLast? = some z ∧ z ≤ 0 := by
  intro fuel
  induction fuel with
  | zero => intro year kpi _ hlen; omega
  | succ n ih =>
    intro year kpi hpos hlen
    have hp : ¬ kpi.populationSize ≤ 0 := by omega
    simp only [simulateAux, if_neg hp] at hlen ⊢
    rcases hr : simulateAux oracle n (year + 1) (loop_body kpi year (oracle year))
      with _ | ⟨r, rs⟩
    · refine ⟨(loop_body kpi year (oracle year)).populationSize, by simp, ?_⟩
      simp only [List.length_cons, List.length_nil] at hlen
      by_contra hcontra
      push_neg at hcontra
      cases n with
      | zero => omega
      | succ m =>
        have hcons : simulateAux oracle (m + 1) (year + 1) (loop_body kpi year (oracle year)) =
            (loop_body (loop_body kpi year (oracle year)) (year + 1) (oracle (year + 1))).populationSize
              :: simulateAux oracle m (year + 2)
                  (loop_body (loop_body kpi year (oracle year)) (year + 1) (oracle (year + 1))) := by
          simp only [simulateAux, if_neg (by omega : ¬ (loop_body kpi year (oracle year)).populationSize ≤ 0)]
        rw [hr] at hcons
        exact List.cons_ne_nil _ _ hcons.symm
    · have hpos' : 0 < (loop_body kpi year (oracle year)).populationSize :=
        simulateAux_ne_nil_pos oracle n (year + 1) _ (by rw [hr]; simp)
      have hlen' : (simulateAux oracle n (year + 1) (loop_body kpi year (oracle year))).length < n := by
        rw [hr] at hlen ⊢
        simp only [List.length_cons] at hlen ⊢
        omega
      obtain ⟨z, hz, hz0⟩ := ih (year + 1) (loop_body kpi year (oracle year)) hpos' hlen'
      rw [hr] at hz
      exact ⟨z, by rw [List.getLast?_cons_cons]; exact hz, hz0⟩

/-- C1 (corrected, counterexample): with a year-0 natural-death draw of 2 the
trajectory returned by `simulate 1` is `[-100]`, so the ≤ 0 value that stops
the simulation *is* contained in the returned trajectory and not every
element is strictly positive. -/
theorem simulate_pos_counterexample :
    simulate 1 cexOracle = [-100] ∧ ¬ (∀ x ∈ simulate 1 cexOracle, 0 < x) := by
  refine ⟨simulate_one_cexOracle, ?_⟩
  rw [simulate_one_cexOracle]
  intro hall
  have := hall (-100) (by simp)
  omega

/-- C1 (amended): the loop does stop the first time the population becomes
≤ 0, but the triggering value is recorded: every element of the returned
trajectory *except possibly the last* is strictly positive, and whenever the
trajectory is cut short of the horizon its last element is the ≤ 0 value
that triggered the stop. -/
theorem simulate_pos_amended :
    ∀ (num_years : ℕ) (oracle : ℕ → Draws),
      (∀ x ∈ (simulate num_years oracle).dropLast, 0 < x)
      ∧ ((simulate num_years oracle).length < num_years →
          ∃ z, (simulate num_years oracle).getLast? = some z ∧ z ≤ 0) := by
  intro num_years oracle
  refine ⟨simulate_dropLast_pos num_years oracle, fun hlen => ?_⟩
  exact simulateAux_short_last_nonpos oracle num_years 0 _
    (by norm_num [KPI.init, initialPopulation]) hlen

/-- Witness for C1 (amended), at concrete oracles: `100` is a non-final entry
of `simulate 2 zOracle` and is positive; `simulate 2 cexOracle` is cut short
(length 1 < 2) and ends with `-100 ≤ 0`. -/
theorem simulate_pos_amended_witness :
    (0 < (100 : ℤ))
    ∧ ∃ z, (simulate 2 cexOracle).getLast? = some z ∧ z ≤ 0 :=
  ⟨(simulate_pos_amended 2 zOracle).1 100 (by rw [simulate_two_zOracle]; simp),
    (simulate_pos_amended 2 cexOracle).2 (by rw [simulate_two_cexOracle]; simp)⟩

/-- C10: a non-positive population value can occur only as the final element
of a trajectory — every entry with at least one entry after it is strictly
positive. -/
theorem simulate_nonpos_only_last :
    ∀ (num_years : ℕ) (oracle : ℕ → Draws) (i : ℕ),
      i + 1 < (simulate num_years oracle).length →
      0 < (simulate num_years oracle).getD i 0 := by
  intro n oracle i h
  have hi : i < (simulate n oracle).dropLast.length := by
    rw [List.length_dropLast]
    omega
  have h1 : (simulate n oracle).getD i 0 = (simulate n oracle).get ⟨i, by omega⟩ :=
    List.getD_eq_getElem _ 0 (by omega)
  have h2 : (simulate n oracle).dropLast.get ⟨i, hi⟩ ∈ (simulate n oracle).dropLast :=
    List.get_mem _ i hi
  have h3 := List.getElem_dropLast (simulate n oracle) i hi
  have h4 := simulate_dropLast_pos n oracle _ h2
  rw [List.get_eq_getElem] at h4
  rw [h1, List.get_eq_getElem, ← h3]
  exact h4

/-- Witness for C10: in `simulate 2 zOracle = [100, 100]` the entry at index
0 has an entry after it and is strictly positive. -/
theorem simulate_nonpos_only_last_witness :
    0 < (simulate 2 zOracle).getD 0 0 :=
  simulate_nonpos_only_last 2 zOracle 0 (by rw [simulate_two_zOracle]; simp)

end HippoPopulation

namespace HippoPopulation

/-! ### Logistic reference model -/

/-- A numpy `float64` scalar as the logistic loop produces it: either a
finite value (modelled exactly as a rational) or the non-finite outcome
(`nan` or `±inf`) of a numpy division by zero. -/
inductive NpFloat where
  | finite : ℚ → NpFloat
  | nonfinite : NpFloat

/-- Pure-Python division (`int`/`float` operands): raises
`ZeroDivisionError` when the denominator is zero, otherwise returns the
exact quotient.  In `logistic_growth` this is the inner
`(carrying_capacity - initial_population) / initial_population`. -/
def py_div (a b : ℚ) : Except Unit ℚ :=
  if b = 0 then .error () else .ok (a / b)

/-- Numpy scalar division.  Because `np.exp` returns `np.float64`, the outer
division of `logistic_growth` has an `np.float64` denominator, so it is a
numpy division: dividing by zero does not raise — it emits a
`RuntimeWarning` and produces `nan` (`0/0`) or `±inf`, i.e. a non-finite
value. -/
def np_div (a b : ℚ) : NpFloat :=
  if b = 0 then .nonfinite else .finite (a / b)

/-- The body of the `for t in range(num_years)` loop of `logistic_growth`:
`p = carrying_capacity / (1 + (carrying_capacity - initial_population) /
initial_population * np.exp(-1 * growth_rate * t))`.  The inner division is
pure Python and can raise; the outer division is numpy (its denominator is
`np.float64`) and yields a non-finite value instead when the denominator is
zero.  `np.exp` is supplied as `expf`. -/
def logistic_step (expf : ℚ → ℚ)
    (growth_rate initial_population carrying_capacity : ℚ) (t : ℕ) : Except Unit NpFloat :=
  match py_div (carrying_capacity - initial_population) initial_population with
  | .error e => .error e
  | .ok ratio =>
    .ok (np_div carrying_capacity (1 + ratio * expf (-1 * growth_rate * (t : ℚ))))

/-- The accumulation loop of `logistic_growth`: appends the value for year
`t = n` after the values for years `0 … n−1`, propagating the
`ZeroDivisionError` that the inner pure-Python division can raise. -/
def logistic_loop (expf : ℚ → ℚ) (growth_rate initial_population carrying_capacity : ℚ) :
    ℕ → Except Unit (List NpFloat)
  | 0 => .ok []
  | n + 1 =>
    match logistic_loop expf growth_rate initial_population carrying_capacity n with
    | .error e => .error e
    | .ok population =>
      match logistic_step expf growth_rate initial_population carrying_capacity n with
      | .error e => .error e
      | .ok p => .ok (population ++ [p])

/-- `logistic_growth(growth_rate, initial_population, carrying_capacity,
num_years)`. -/
def logistic_growth (expf : ℚ → ℚ)
    (growth_rate initial_population carrying_capacity : ℚ) (num_years : ℕ) :
    Except Unit (List NpFloat) :=
  logistic_loop expf growth_rate initial_population carrying_capacity num_years

lemma logistic_loop_succ (expf : ℚ → ℚ) (r P0 K : ℚ) (n : ℕ) :
    logistic_loop expf r P0 K (n + 1) =
      match logistic_loop expf r P0 K n with
      | .error e => .error e
      | .ok population =>
        match logistic_step expf r P0 K n with
        | .error e => .error e
        | .ok p => .ok (population ++ [p]) := rfl

lemma logistic_step_P0_zero (expf : ℚ → ℚ) (r K : ℚ) (t : ℕ) :
    logistic_step expf r 0 K t = .error () := by
  simp [logistic_step, py_div]

lemma logistic_loop_length (expf : ℚ → ℚ) (r P0 K : ℚ) :
    ∀ (n : ℕ) (l : List NpFloat), logistic_loop expf r P0 K n = .ok l → l.length = n := by
  intro n
  induction n with
  | zero =>
    intro l h
    simp only [logistic_loop] at h
    cases h
    rfl
  | succ m ih =>
    intro l h
    rw [logistic_loop_succ] at h
    cases hm : logistic_loop expf r P0 K m with
    | error e => rw [hm] at h; simp at h
    | ok l0 =>
      rw [hm] at h
      cases hs : logistic_step expf r P0 K m with
      | error e => rw [hs] at h; simp at h
      | ok p =>
        rw [hs] at h
        simp only [Except.ok.injEq] at h
        subst h
        simp [ih l0 hm]

lemma logistic_loop_head (expf : ℚ → ℚ) (r P0 K : ℚ) :
    ∀ (n : ℕ) (l : List NpFloat), 1 ≤ n → logistic_loop expf r P0 K n = .ok l →
      ∃ p, logistic_step expf r P0 K 0 = .ok p ∧ l.head? = some p := by
  intro n
  induction n with
  | zero => intro l h0 _; omega
  | succ m ih =>
    intro l _ h
    rw [logistic_loop_succ] at h
    cases hm : logistic_loop expf r P0 K m with
    | error e => rw [hm] at h; simp at h
    | ok l0 =>
      rw [hm] at h
      cases hs : logistic_step expf r P0 K m with
      | error e => rw [hs] at h; simp at h
      | ok p =>
        rw [hs] at h
        simp only [Except.ok.injEq] at h
        subst h
        cases m with
        | zero =>
          have hl0 : l0 = [] := by
            simpa [logistic_loop] using hm.symm
          subst hl0
          exact ⟨p, hs, by simp⟩
        | succ k =>
          obtain ⟨q, hq, hhead⟩ := ih l0 (by omega) hm
          refine ⟨q, hq, ?_⟩
          have hne : l0 ≠ [] := by
            have := logistic_loop_length expf r P0 K (k + 1) l0 hm
            intro hcontra
            rw [hcontra] at this
            simp at this
          cases l0 with
          | nil => exact absurd rfl hne
          | cons a t => simpa using hhead

/-- With `P0 ≠ 0` the inner pure-Python division succeeds, so a loop
iteration never raises: it returns the (possibly non-finite) numpy
quotient. -/
lemma logistic_step_ok (expf : ℚ → ℚ) (r P0 K : ℚ) (hP0 : P0 ≠ 0) (t : ℕ) :
    logistic_step expf r P0 K t =
      .ok (np_div K (1 + (K - P0) / P0 * expf (-1 * r * (t : ℚ)))) := by
  simp [logistic_step, py_div, hP0]

/-- With `P0 ≠ 0` the whole loop never raises: it returns some list. -/
lemma logistic_loop_total (expf : ℚ → ℚ) (r P0 K : ℚ) (hP0 : P0 ≠ 0) :
    ∀ n : ℕ, ∃ l : List NpFloat, logistic_loop expf r P0 K n = .ok l := by
  intro n
  induction n with
  | zero => exact ⟨[], rfl⟩
  | succ m ih =>
    obtain ⟨l, hl⟩ := ih
    refine ⟨l ++ [np_div K (1 + (K - P0) / P0 * expf (-1 * r * (m : ℚ)))], ?_⟩
    rw [logistic_loop_succ, hl, logistic_step_ok expf r P0 K hP0 m]

/-- With `expf 0 = 1` and both `P0` and `K` nonzero, the year-0 value of the
logistic formula is exactly the finite value `P0`. -/
lemma logistic_step_zero (expf : ℚ → ℚ) (r P0 K : ℚ)
    (hexp : expf 0 = 1) (hP0 : P0 ≠ 0) (hK : K ≠ 0) :
    logistic_step expf r P0 K 0 = .ok (.finite P0) := by
  have harg : -1 * r * ((0 : ℕ) : ℚ) = 0 := by push_cast; ring
  rw [logistic_step_ok expf r P0 K hP0 0, harg, hexp]
  have hden : 1 + (K - P0) / P0 * 1 = K / P0 := by field_simp
  have hval : K / (K / P0) = P0 := by
    rw [div_div_eq_mul_div, mul_comm, mul_div_assoc, div_self hK, mul_one]
  rw [hden]
  simp only [np_div, if_neg (div_ne_zero hK hP0), hval]

/-- C8: `logistic_growth` with initial population `P0 = 0` hits the inner
pure-Python division `(K − 0) / 0` in its first iteration — which raises
`ZeroDivisionError` before `np.exp` is even evaluated — and so returns an
error instead of a sequence, for every exponential, growth rate, carrying
capacity, and `num_years ≥ 1`. -/
theorem logistic_growth_P0_zero_spec :
    ∀ (expf : ℚ → ℚ) (growth_rate carrying_capacity : ℚ) (num_years : ℕ),
      1 ≤ num_years →
      logistic_growth expf growth_rate 0 carrying_capacity num_years = .error () := by
  intro expf r K n hn
  induction n with
  | zero => omega
  | succ m ih =>
    cases m with
    | zero =>
      simp [logistic_growth, logistic_loop, logistic_step, py_div]
    | succ k =>
      have h := ih (by omega)
      simp only [logistic_growth] at h ⊢
      rw [logistic_loop_succ, h]

/-- Witness for C8: at `r = 1`, `K = 5`, one year, the call fails. -/
theorem logistic_growth_P0_zero_spec_witness :
    logistic_growth (fun _ => 1) 1 0 5 1 = .error () :=
  logistic_growth_P0_zero_spec (fun _ => 1) 1 5 1 (by norm_num)

end HippoPopulation

namespace HippoPopulation

/-- C9 (corrected, counterexample): at `K = 0` (with `P0 = 5 > 0`,
`num_years = 1 ≥ 1`, growth rate 1 and an exponential with `expf 0 = 1`) the
year-0 denominator `1 + ((0 − 5)/5)·1` is zero.  It is an `np.float64`, so
the numpy division warns and yields `nan` rather than raising:
`logistic_growth` returns the one-element sequence `[nan]`, whose first
element is not `P0 = 5` — refuting "for every K the first element of the
returned sequence equals exactly P0". -/
theorem logistic_growth_head_counterexample :
    logistic_growth (fun _ => 1) 1 5 0 1 = .ok [NpFloat.nonfinite]
    ∧ ([NpFloat.nonfinite].head? ≠ some (NpFloat.finite 5)) := by
  constructor
  · norm_num [logistic_growth, logistic_loop, logistic_step, py_div, np_div]
  · intro h
    rw [List.head?_cons, Option.some.injEq] at h
    exact NpFloat.noConfusion h

/-- C9 (amended): for every growth rate, every `P0 > 0`, every `K ≠ 0`,
every exponential with `expf 0 = 1` and every `num_years ≥ 1`,
`logistic_growth` returns a sequence and its first element is exactly the
finite value `P0`, because `K / (1 + ((K − P0)/P0) · e⁰) = K / (K/P0) = P0`
in exact arithmetic.  (At `K = 0` the call still returns a sequence, but its
first element is the non-finite result of a numpy division by zero.) -/
theorem logistic_growth_head_spec :
    ∀ (expf : ℚ → ℚ) (growth_rate initial_population carrying_capacity : ℚ)
      (num_years : ℕ),
      expf 0 = 1 →
      0 < initial_population →
      carrying_capacity ≠ 0 →
      1 ≤ num_years →
      ∃ l : List NpFloat,
        logistic_growth expf growth_rate initial_population carrying_capacity num_years =
          .ok l
        ∧ l.head? = some (NpFloat.finite initial_population) := by
  intro expf r P0 K n hexp hP0 hK hn
  obtain ⟨l, hl⟩ := logistic_loop_total expf r P0 K (ne_of_gt hP0) n
  refine ⟨l, hl, ?_⟩
  obtain ⟨p, hp, hhead⟩ := logistic_loop_head expf r P0 K n l hn hl
  rw [logistic_step_zero expf r P0 K hexp (ne_of_gt hP0) hK] at hp
  simp only [Except.ok.injEq] at hp
  rw [hhead, hp]

/-- Witness for C9 (amended): `logistic_growth` with `expf 0 = 1`, `r = 1`,
`P0 = 5`, `K = 10` over one year returns `[finite 5]`, whose head is
`P0 = 5`. -/
theorem logistic_growth_head_spec_witness :
    logistic_growth (fun _ => 1) 1 5 10 1 = .ok [NpFloat.finite 5]
    ∧ ∃ l : List NpFloat,
        logistic_growth (fun _ => 1) 1 5 10 1 = .ok l
        ∧ l.head? = some (NpFloat.finite 5) := by
  constructor
  · norm_num [logistic_growth, logistic_loop, logistic_step, py_div, np_div]
  · exact logistic_growth_head_spec (fun _ => 1) 1 5 10 1 rfl (by norm_num) (by norm_num)
      (by norm_num)

end HippoPopulation

namespace HippoPopulation

/-! ### Carrying-capacity estimator -/

/-- Python `max` of a list: raises `ValueError` on an empty list. -/
def py_max : List ℤ → Except Unit ℤ
  | [] => .error ()
  | a :: l => .ok (l.foldl max a)

/-- Total variant of `py_max`, used on lists known to be nonempty. -/
def total_max : List ℤ → ℤ
  | [] => 0
  | a :: l => l.foldl max a

/-- `np.mean` of a list of integers, as an exact rational. -/
def np_mean_int (l : List ℤ) : ℚ := ((l.sum : ℤ) : ℚ) / (l.length : ℚ)

/-- `np.mean` of a list of rationals, as an exact rational. -/
def np_mean_rat (l : List ℚ) : ℚ := l.sum / (l.length : ℚ)

/-- The body of the inner `for j in range(num)` loop of
`get_carrying_capacity`: run one simulation, take its maximum (`x`), append
it to `array` (which is never reset), and recompute `maximum = np.mean(array)`.
The state is the pair `(array, maximum)`.  The oracle is indexed by outer
index `i`, inner index `j` and year. -/
def gcc_inner_step (oracle : ℕ → ℕ → ℕ → Draws) (years i : ℕ)
    (st : List ℤ × ℚ) (j : ℕ) : Except Unit (List ℤ × ℚ) :=
  match py_max (simulate years (oracle i j)) with
  | .error e => .error e
  | .ok x =>
    let array := st.1 ++ [x]
    .ok (array, np_mean_int array)

/-- The inner `for j in range(cnt)` loop, iterating `gcc_inner_step` for
`j = 0, …, cnt − 1`. -/
def gcc_inner (oracle : ℕ → ℕ → ℕ → Draws) (years i : ℕ) :
    ℕ → List ℤ × ℚ → Except Unit (List ℤ × ℚ)
  | 0, st => .ok st
  | j + 1, st =>
    match gcc_inner oracle years i j st with
    | .error e => .error e
    | .ok st' => gcc_inner_step oracle years i st' j

/-- The outer `for i in range(cnt)` loop of `get_carrying_capacity`: each
iteration runs the inner loop over `num` simulations on the shared
`(array, maximum)` state, then appends `maximum` to `result`. -/
def gcc_outer (oracle : ℕ → ℕ → ℕ → Draws) (years num : ℕ) :
    ℕ → Except Unit ((List ℤ × ℚ) × List ℚ)
  | 0 => .ok (([], 0), [])
  | i + 1 =>
    match gcc_outer oracle years num i with
    | .error e => .error e
    | .ok st =>
      match gcc_inner oracle years i num st.1 with
      | .error e => .error e
      | .ok inner => .ok (inner, st.2 ++ [inner.2])

/-- `get_carrying_capacity(num, years)`: run the nested loops and return
`int(np.mean(result))`. -/
def get_carrying_capacity (num years : ℕ) (oracle : ℕ → ℕ → ℕ → Draws) :
    Except Unit ℤ :=
  match gcc_outer oracle years num num with
  | .error e => .error e
  | .ok st => .ok (int_trunc (np_mean_rat st.2))

/-- The maximum of the trajectory of inner simulation `(i, j)`. -/
def traj_max (oracle : ℕ → ℕ → ℕ → Draws) (years i j : ℕ) : ℤ :=
  total_max (simulate years (oracle i j))

/-- The `num` maxima recorded during outer iteration `i`. -/
def round_maxima (oracle : ℕ → ℕ → ℕ → Draws) (years num i : ℕ) : List ℤ :=
  (List.range num).map (traj_max oracle years i)

/-- The contents of `array` after the first `i` outer iterations: all maxima
collected so far, across outer iterations, in order. -/
def flat_maxima (oracle : ℕ → ℕ → ℕ → Draws) (years num : ℕ) : ℕ → List ℤ
  | 0 => []
  | i + 1 => flat_maxima oracle years num i ++ round_maxima oracle years num i

/-- The `result` list: the `i`-th entry (0-indexed) is the mean of all maxima
collected during the first `i + 1` outer iterations. -/
def cumulative_means (oracle : ℕ → ℕ → ℕ → Draws) (years num : ℕ) : List ℚ :=
  (List.range num).map (fun i => np_mean_int (flat_maxima oracle years num (i + 1)))

lemma gcc_inner_succ (oracle : ℕ → ℕ → ℕ → Draws) (years i j : ℕ) (st : List ℤ × ℚ) :
    gcc_inner oracle years i (j + 1) st =
      match gcc_inner oracle years i j st with
      | .error e => .error e
      | .ok st' => gcc_inner_step oracle years i st' j := rfl

lemma gcc_outer_succ (oracle : ℕ → ℕ → ℕ → Draws) (years num i : ℕ) :
    gcc_outer oracle years num (i + 1) =
      match gcc_outer oracle years num i with
      | .error e => .error e
      | .ok st =>
        match gcc_inner oracle years i num st.1 with
        | .error e => .error e
        | .ok inner => .ok (inner, st.2 ++ [inner.2]) := rfl

lemma simulate_ne_nil (years : ℕ) (hy : 1 ≤ years) (oracle : ℕ → Draws) :
    simulate years oracle ≠ [] := by
  obtain ⟨m, rfl⟩ : ∃ m, years = m + 1 := ⟨years - 1, by omega⟩
  simp [simulate, simulateAux, initialPopulation, KPI.init]

lemma py_max_simulate (years : ℕ) (hy : 1 ≤ years) (oracle : ℕ → Draws) :
    py_max (simulate years oracle) = .ok (total_max (simulate years oracle)) := by
  cases hsim : simulate years oracle with
  | nil => exact absurd hsim (simulate_ne_nil years hy oracle)
  | cons a t => rfl

lemma gcc_inner_ok (oracle : ℕ → ℕ → ℕ → Draws) (years : ℕ) (hy : 1 ≤ years) (i : ℕ) :
    ∀ (cnt : ℕ) (st : List ℤ × ℚ),
      gcc_inner oracle years i cnt st =
        .ok (st.1 ++ (List.range cnt).map (traj_max oracle years i),
          if cnt = 0 then st.2
          else np_mean_int (st.1 ++ (List.range cnt).map (traj_max oracle years i))) := by
  intro cnt
  induction cnt with
  | zero => intro st; simp [gcc_inner]
  | succ m ih =>
    intro st
    rw [gcc_inner_succ, ih st]
    show gcc_inner_step oracle years i _ m = _
    have hp := py_max_simulate years hy (oracle i m)
    simp only [gcc_inner_step, hp]
    simp only [List.range_succ, List.map_append, List.map_cons, List.map_nil,
      Except.ok.injEq, Prod.mk.injEq]
    refine ⟨by rw [List.append_assoc]; rfl, ?_⟩
    rw [if_neg (by omega)]
    rw [List.append_assoc]
    rfl

lemma flat_maxima_prefix (oracle : ℕ → ℕ → ℕ → Draws) (years num : ℕ) :
    ∀ i j : ℕ, i ≤ j →
      flat_maxima oracle years num i <+: flat_maxima oracle years num j := by
  intro i j
  induction j with
  | zero => intro h; interval_cases i; exact List.prefix_refl _
  | succ m ih =>
    intro h
    rcases Nat.lt_or_ge i (m + 1) with hlt | hge
    · exact (ih (by omega)).trans (List.prefix_append _ _)
    · have : i = m + 1 := by omega
      subst this
      exact List.prefix_refl _

lemma flat_maxima_length (oracle : ℕ → ℕ → ℕ → Draws) (years num : ℕ) :
    ∀ i : ℕ, (flat_maxima oracle years num i).length = i * num := by
  intro i
  induction i with
  | zero => simp [flat_maxima]
  | succ m ih =>
    simp only [flat_maxima, round_maxima, List.length_append, List.length_map,
      List.length_range, ih]
    ring

lemma gcc_outer_ok (oracle : ℕ → ℕ → ℕ → Draws) (years num : ℕ)
    (hy : 1 ≤ years) (hn : 1 ≤ num) :
    ∀ cnt : ℕ,
      gcc_outer oracle years num cnt =
        .ok ((flat_maxima oracle years num cnt,
            if cnt = 0 then 0
            else np_mean_int (flat_maxima oracle years num cnt)),
          (List.range cnt).map
            (fun i => np_mean_int (flat_maxima oracle years num (i + 1)))) := by
  intro cnt
  induction cnt with
  | zero => simp [gcc_outer, flat_maxima]
  | succ m ih =>
    rw [gcc_outer_succ, ih]
    show (match gcc_inner oracle years m num (flat_maxima oracle years num m, _) with
      | Except.error e => Except.error e
      | Except.ok inner => Except.ok (inner, _ ++ [inner.2])) = _
    rw [gcc_inner_ok oracle years hy m num]
    simp only [if_neg (show ¬ num = 0 by omega), Except.ok.injEq, Prod.mk.injEq]
    refine ⟨⟨rfl, ?_⟩, ?_⟩
    · rw [if_neg (by omega)]
      rfl
    · rw [List.range_succ, List.map_append, List.map_cons, List.map_nil]
      rfl

end HippoPopulation

namespace HippoPopulation

/-- An oracle for `get_carrying_capacity 2 1`: the two simulations of the
first outer iteration draw birth rate 0 (trajectory `[100]`), the two of the
second draw birth rate `0.08` (trajectory `[108]`), so the cumulative means
`[100, 104]` average to `102` while the simple mean of all four maxima is
`104`. -/
def g2Oracle : ℕ → ℕ → ℕ → Draws :=
  fun i _ _ => if i = 0 then zeroDraws else { zeroDraws with birthRate := 2 / 25 }

/-- C2: for `num ≥ 1` and `years ≥ 1`, `get_carrying_capacity` succeeds and
returns the integer truncation of the mean of the `num` recorded
cumulative means, where the `i`-th recorded value is the mean of the maxima
of the first `(i+1)·num` trajectories; the maxima list is never reset (each
stage of `array` is a prefix of every later stage).  It is *not* the simple
mean of all `num·num` maxima: at `num = 2`, `years = 1` with `g2Oracle` the
function returns 102 while the simple mean of the four maxima truncates
to 104. -/
theorem get_carrying_capacity_spec :
    (∀ (num years : ℕ) (oracle : ℕ → ℕ → ℕ → Draws), 1 ≤ num → 1 ≤ years →
        get_carrying_capacity num years oracle =
          .ok (int_trunc (np_mean_rat (cumulative_means oracle years num)))
        ∧ (∀ i : ℕ, (flat_maxima oracle years num i).length = i * num)
        ∧ (∀ i j : ℕ, i ≤ j →
            flat_maxima oracle years num i <+: flat_maxima oracle years num j))
    ∧ (get_carrying_capacity 2 1 g2Oracle = .ok 102
        ∧ int_trunc (np_mean_int (flat_maxima g2Oracle 1 2 2)) = 104) := by
  constructor
  · intro num years oracle hn hy
    refine ⟨?_, flat_maxima_length oracle years num, flat_maxima_prefix oracle years num⟩
    simp only [get_carrying_capacity]
    rw [gcc_outer_ok oracle years num hy hn num]
    rfl
  · constructor
    · norm_num [get_carrying_capacity, gcc_outer, gcc_inner, gcc_inner_step, py_max,
        np_mean_int, np_mean_rat, g2Oracle, zeroDraws,
        simulate, simulateAux, loop_body, KPI.init, initialPopulation,
        get_num_births, get_num_deaths, get_num_human_deaths, get_num_resource_deaths,
        get_num_phenomenon_deaths, is_there_human_influence, enough_resources,
        is_there_phenomenon, int_trunc]
    · have hflat : flat_maxima g2Oracle 1 2 2 = [100, 100, 108, 108] := by
        norm_num [flat_maxima, round_maxima, traj_max, total_max, List.range_succ,
          g2Oracle, zeroDraws,
          simulate, simulateAux, loop_body, KPI.init, initialPopulation,
          get_num_births, get_num_deaths, get_num_human_deaths, get_num_resource_deaths,
          get_num_phenomenon_deaths, is_there_human_influence, enough_resources,
          is_there_phenomenon, int_trunc]
      rw [hflat]
      norm_num [np_mean_int, int_trunc]

/-- Witness for C2: at `num = years = 1` with the all-zero oracle the
estimator returns the stated cumulative-mean expression, and the maxima
list after the single outer iteration has `1 · 1` entries. -/
theorem get_carrying_capacity_spec_witness :
    get_carrying_capacity 1 1 (fun _ _ _ => zeroDraws) =
      .ok (int_trunc (np_mean_rat (cumulative_means (fun _ _ _ => zeroDraws) 1 1)))
    ∧ (flat_maxima (fun _ _ _ => zeroDraws) 1 1 1).length = 1 * 1 :=
  ⟨(get_carrying_capacity_spec.1 1 1 _ (by norm_num) (by norm_num)).1,
    (get_carrying_capacity_spec.1 1 1 _ (by norm_num) (by norm_num)).2.1 1⟩

end HippoPopulation
